import Mathlib

/-!
Verification of the rocket-rover network stack (`src/cube/common/network.c`
and the transport layer it contains).

The C code is shallowly embedded: byte buffers become `List ℕ` (each element
a byte value), machine arithmetic is `ℕ` with explicit `% 256` / `% 65536`
where the C types truncate, and the blocking network primitives become an
explicit stream of events (`NetEv`): each call to the underlying
`network_rx` consumes one event, which is either a timeout, an error, or a
received segment.  Per-node compile-time constants (`MY_PORT`,
`MY_NETWORK_ADDR`) are passed as explicit parameters.
-/

namespace RocketRover

/-! ## Constants (from `networking_constants.h`, values fixed in the spec §6
and in the comments of `network.c`) -/

def PACKET_HEADER_LEN : ℕ := 3

def FRAME_HEADER_LEN : ℕ := 1

def TRX_PAYLOAD_LENGTH : ℕ := 32

def MAX_PACKET_LEN : ℕ := TRX_PAYLOAD_LENGTH - FRAME_HEADER_LEN

def MAX_SEGMENT_LEN : ℕ := MAX_PACKET_LEN - PACKET_HEADER_LEN

def DATA_SEGMENT_HEADER_LEN : ℕ := 7

def START_SEGMENT_HEADER_LEN : ℕ := 7

def END_SEGMENT_HEADER_LEN : ℕ := 5

/-- Source spelling kept, typo included. -/
def ACK_SEGMENT_HEARDER_LEN : ℕ := 5

def SEGID_START_OF_MESSAGE : ℕ := 0x07

def SEGID_DATA : ℕ := 0x0D

def SEGID_END_OF_MESSAGE : ℕ := 0x09

def SEGID_ACK : ℕ := 0x0A

def TRANSPORT_TX_ATTEMPT_LIMIT : ℕ := 10

/-! ## Environment events

One event per call to the underlying timed `network_rx`. -/

inductive NetEv
  | timeout
  | error
  | seg (s : List ℕ)
deriving DecidableEq, Repr

/-- Read byte `i` of a buffer (out-of-range reads are irrelevant to every
theorem below; `0` stands for an arbitrary byte). -/
def byteAt (s : List ℕ) (i : ℕ) : ℕ := s.getD i 0

/-! ## Network layer (`network.c` lines 37–81, the forwarding variant)

`network_tx` builds a packet: `packet[0] = payload_len + PACKET_HEADER_LEN`,
`packet[1] = dest`, `packet[2] = src`, then copies
`i < payload_len && i < MAX_PACKET_LEN - PACKET_HEADER_LEN` payload bytes. -/

def network_tx_packet (payload : List ℕ) (payload_len dest src : ℕ) : List ℕ :=
  ((payload_len + PACKET_HEADER_LEN) % 256) :: (dest % 256) :: (src % 256) ::
    (List.range (min payload_len (MAX_PACKET_LEN - PACKET_HEADER_LEN))).map
      (fun i => byteAt payload i % 256)

/-- Number of payload bytes the `network_tx` copy loop actually places. -/
def network_tx_copied (payload_len : ℕ) : ℕ :=
  min payload_len (MAX_PACKET_LEN - PACKET_HEADER_LEN)

/-- `network_rx` (lines 43–54): if the received packet is not addressed to
this node it is handed back to `network_tx` as
`network_tx(packet, packet_len, packet[1], packet[2])` — i.e. the whole
packet, header included, becomes the payload of a fresh packet.  `some p`
is the packet re-emitted on the wire; `none` means the packet is delivered
upward instead. -/
def network_rx_forward (myNetworkAddr : ℕ) (packet : List ℕ) : Option (List ℕ) :=
  if byteAt packet 1 ≠ myNetworkAddr then
    some (network_tx_packet packet (byteAt packet 0) (byteAt packet 1) (byteAt packet 2))
  else
    none

/-! ## Transport layer, receiver side (`network.c` lines 377–524) -/

inductive AttemptRxResult
  | success
  | outdated
  | timeout
  | error
deriving DecidableEq, Repr

/-- The ACK segment built at lines 404–408:
`[ACK_SEGMENT_HEARDER_LEN, seg[1]==0 ? 1 : 0, seg[3], MY_PORT, SEGID_ACK]`. -/
def ackSegment (myPort : ℕ) (s : List ℕ) : List ℕ :=
  [ACK_SEGMENT_HEARDER_LEN, if byteAt s 1 = 0 then 1 else 0, byteAt s 3, myPort, SEGID_ACK]

/-- `transport_attempt_rx` (lines 388–421).  State `rx_seq` is the
function-local `static byte rx_seq`.  Returns the classification, the new
`rx_seq`, and the ACK emitted via `network_tx` (if any). -/
def transport_attempt_rx (myPort rx_seq : ℕ) (ev : NetEv) :
    AttemptRxResult × ℕ × Option (List ℕ) :=
  match ev with
  | .timeout => (.timeout, rx_seq, none)
  | .error => (.error, rx_seq, none)
  | .seg s =>
    -- line 400: SOM resynchronizes rx_seq before anything else
    let rs := if byteAt s 4 = SEGID_START_OF_MESSAGE then byteAt s 1 else rx_seq
    let ack := ackSegment myPort s
    -- line 413: sequence check (the ACK has already been sent)
    if rs ≠ byteAt s 1 then
      (.outdated, rs, some ack)
    else
      (.success, if rs = 0 then 1 else 0, some ack)

inductive KeepRxResult
  | success
  | timeout
  | error
deriving DecidableEq, Repr

/-- `transport_keep_trying_to_rx` (lines 429–453) over a finite event trace.
Returns `some ((result, delivered segment), rx_seq', remaining events)`, or
`none` when the trace ends while the loop is still retrying.  Mirrors the
C loop: SUCCESS and TIMEOUT return; OUTDATED retries; ERROR also retries
(the `return TRANSPORT_KEEP_TRYING_TO_RX_ERROR` at line 448 is commented
out in the source). -/
def transport_keep_trying_to_rx (myPort rx_seq : ℕ) :
    List NetEv → Option ((KeepRxResult × List ℕ) × ℕ × List NetEv)
  | [] => none
  | ev :: rest =>
    match transport_attempt_rx myPort rx_seq ev with
    | (.success, seq', _) =>
      match ev with
      | .seg s => some ((.success, s), seq', rest)
      | _ => some ((.success, []), seq', rest)
    | (.timeout, seq', _) => some ((.timeout, []), seq', rest)
    | (.outdated, seq', _) => transport_keep_trying_to_rx myPort seq' rest
    | (.error, seq', _) => transport_keep_trying_to_rx myPort seq' rest

inductive TransportRxResult
  | success
  | timeout
  | error
deriving DecidableEq, Repr

inductive RxState
  | idle
  | receiving
deriving DecidableEq, Repr

/-- The copy loop at lines 506–508:
`for (uint16_t i = 0; i < payload_len && i + offset < buf_len; i++)
   buffer[i + offset] = segment[i + DATA_SEGMENT_HEADER_LEN];`
modelled as the list of `(index, value)` stores it performs.  The second
argument of the recursion counts the iterations left before `i` reaches
`payload_len`. -/
def dataCopyLoop (s : List ℕ) (offset buf_len : ℕ) : ℕ → ℕ → List (ℕ × ℕ)
  | _, 0 => []
  | i, k + 1 =>
    if i + offset < buf_len then
      (i + offset, byteAt s (i + DATA_SEGMENT_HEADER_LEN)) :: dataCopyLoop s offset buf_len (i + 1) k
    else
      []

def dataCopyWrites (s : List ℕ) (offset payload_len buf_len : ℕ) : List (ℕ × ℕ) :=
  dataCopyLoop s offset buf_len 0 payload_len

/-- The initial zeroing loop at line 466:
`for (int i = 0; i < buf_len; i++) buffer[i] = 0;`. -/
def zeroWrites (buf_len : ℕ) : List (ℕ × ℕ) :=
  (List.range buf_len).map (fun i => (i, 0))

/-- Line 495 / line 518: `*message_len = segment[5] << 8 + segment[6];`.
By C operator precedence this shifts by `8 + segment[6]`; the result is
truncated into the `uint16_t` that `message_len` points to. -/
def som_message_len_code (s : List ℕ) : ℕ :=
  ((byteAt s 5 % 256) <<< (8 + byteAt s 6 % 256)) % 65536

/-- Modelled from the spec: the big-endian decoding
`(segment[5] << 8) + segment[6]` that the spec mandates for the SOM
message-length field (the DATA offset path at line 503 uses exactly this
parenthesized form in the source). -/
def som_message_len_spec (s : List ℕ) : ℕ :=
  (byteAt s 5 % 256) * 256 + byteAt s 6 % 256

/-- The DATA-segment offset at line 503:
`uint16_t offset = (segment[5] << 8) + segment[6];` (correctly
parenthesized in the source). -/
def data_offset (s : List ℕ) : ℕ :=
  (byteAt s 5 % 256) * 256 + byteAt s 6 % 256

/-- The `payload_len` computation at line 504:
`byte payload_len = segment_len - DATA_SEGMENT_HEADER_LEN;` — 8-bit
arithmetic, so a `segment_len` below 7 wraps around. -/
def data_payload_len (segment_len : ℕ) : ℕ :=
  (segment_len % 256 + 256 - DATA_SEGMENT_HEADER_LEN) % 256

/-- One iteration of the `transport_rx` message loop (lines 476–523)
applied to a successfully received segment `s`: returns the new state, the
buffer stores performed, and the new values behind `message_len` /
`source_port` (modelled for non-NULL pointers). -/
def transport_rx_step (buf_len : ℕ) (st : RxState) (msgLen srcPort : Option ℕ)
    (s : List ℕ) : RxState × List (ℕ × ℕ) × Option ℕ × Option ℕ :=
  let segment_len := byteAt s 0
  let segment_identifier := byteAt s 4
  match st with
  | .idle =>
    if segment_identifier = SEGID_START_OF_MESSAGE then
      (.receiving, [], some (som_message_len_code s), some (byteAt s 3))
    else
      (.idle, [], msgLen, srcPort)
  | .receiving =>
    if segment_identifier = SEGID_DATA then
      let offset := data_offset s
      let payload_len := data_payload_len segment_len
      (.receiving, dataCopyWrites s offset payload_len buf_len, msgLen, srcPort)
    else if segment_identifier = SEGID_START_OF_MESSAGE then
      (.receiving, [], some (som_message_len_code s), srcPort)
    else
      (.receiving, [], msgLen, srcPort)

/-- The `transport_rx` message loop (lines 476–523).  `fuel` bounds the
number of outer iterations; `none` means the event trace (or the fuel) ran
out before the function returned.  On a result, the second component
collects every store into the caller's buffer made by the loop. -/
def transport_rx_go (myPort buf_len : ℕ) :
    ℕ → ℕ → RxState → Option ℕ → Option ℕ → List NetEv →
    Option (TransportRxResult × List (ℕ × ℕ) × Option ℕ × Option ℕ)
  | 0, _, _, _, _, _ => none
  | fuel + 1, rx_seq, st, msgLen, srcPort, evs =>
    match transport_keep_trying_to_rx myPort rx_seq evs with
    | none => none
    | some ((.timeout, _), _, _) => some (.timeout, [], msgLen, srcPort)
    | some ((.error, _), _, _) => some (.error, [], msgLen, srcPort)
    | some ((.success, s), seq', rest) =>
      if st = .receiving ∧ byteAt s 4 = SEGID_END_OF_MESSAGE then
        some (.success, [], msgLen, srcPort)
      else
        let (st', ws, ml', sp') := transport_rx_step buf_len st msgLen srcPort s
        match transport_rx_go myPort buf_len fuel seq' st' ml' sp' rest with
        | none => none
        | some (r, ws', ml'', sp'') => some (r, ws ++ ws', ml'', sp'')

/-- `transport_rx` (lines 463–524): zero the buffer, then run the message
loop from Idle.  The write list includes the initial zeroing stores. -/
def transport_rx_model (myPort buf_len rx_seq fuel : ℕ) (evs : List NetEv) :
    Option (TransportRxResult × List (ℕ × ℕ) × Option ℕ × Option ℕ) :=
  match transport_rx_go myPort buf_len fuel rx_seq .idle none none evs with
  | none => none
  | some (r, ws, ml, sp) => some (r, zeroWrites buf_len ++ ws, ml, sp)

/-! ## Transport layer, transmitter side (`network.c` lines 530–683) -/

inductive AttemptTxResult
  | success
  | notAcknowledged
  | oldAck
  | notAnAck
  | error
deriving DecidableEq, Repr

/-- `transport_attempt_tx` (lines 542–566): transmit the segment, then
classify what the ACK-wait `network_rx` call produced (`ev`).  The
transmit result itself is deliberately ignored by the source (lines
550–556 are commented out). -/
def transport_attempt_tx (ev : NetEv) (current_seq_num : ℕ) : AttemptTxResult :=
  match ev with
  | .timeout => .notAcknowledged
  | .error => .error
  | .seg a =>
    if byteAt a 4 ≠ SEGID_ACK then .notAnAck
    else if byteAt a 1 = current_seq_num then .oldAck
    else .success

inductive KeepTxResult
  | success
  | reachedAttemptLimit
  | error
deriving DecidableEq, Repr

/-- The loop body of `transport_keep_trying_to_tx` (lines 583–599) with
`n` attempts still allowed and `idx` the index of the next environment
event (one event per `transport_attempt_tx` call).  Returns the result and
the number of `transport_attempt_tx` calls made. -/
def keepTxGo (env : ℕ → NetEv) (current_seq_num : ℕ) : ℕ → ℕ → KeepTxResult × ℕ
  | 0, _ => (.reachedAttemptLimit, 0)
  | n + 1, idx =>
    match transport_attempt_tx (env idx) current_seq_num with
    | .success => (.success, 1)
    | .error => (.error, 1)
    | _ =>
      let r := keepTxGo env current_seq_num n (idx + 1)
      (r.1, r.2 + 1)

/-- `transport_keep_trying_to_tx` (lines 578–600): the counter starts at
zero, is incremented before the limit check, so exactly
`TRANSPORT_TX_ATTEMPT_LIMIT` attempts are possible. -/
def transport_keep_trying_to_tx (env : ℕ → NetEv) (current_seq_num idx : ℕ) :
    KeepTxResult × ℕ :=
  keepTxGo env current_seq_num TRANSPORT_TX_ATTEMPT_LIMIT idx

/-- Toggle of the 1-bit sequence number: `x == 0 ? 1 : 0`. -/
def seqToggle (x : ℕ) : ℕ := if x = 0 then 1 else 0

/-- The SOM segment built at lines 618–624. -/
def somSegment (message_len dest_port myPort current_seq_num : ℕ) : List ℕ :=
  [START_SEGMENT_HEADER_LEN, current_seq_num, dest_port, myPort,
   SEGID_START_OF_MESSAGE, message_len / 256 % 256, message_len % 256]

/-- The EOM segment built at lines 670–674. -/
def eomSegment (dest_port myPort current_seq_num : ℕ) : List ℕ :=
  [END_SEGMENT_HEADER_LEN, current_seq_num, dest_port, myPort, SEGID_END_OF_MESSAGE]

/-- The DATA segment built at lines 648–657 for
`start_address = message_len - bytes_remaining` and payload length
`this_payload_len`. -/
def dataSegment (msg : ℕ → ℕ) (dest_port myPort current_seq_num start_address
    this_payload_len : ℕ) : List ℕ :=
  [this_payload_len + DATA_SEGMENT_HEADER_LEN, current_seq_num, dest_port, myPort,
   SEGID_DATA, start_address / 256 % 256, start_address % 256] ++
    (List.range this_payload_len).map (fun i => msg (i + start_address))

inductive TxResult
  | success
  | reachedAttemptLimit
  | error
deriving DecidableEq, Repr

/-- The data-segment loop of `transport_tx` (lines 634–667).  `br` is
`bytes_remaining`, `cs` the current sequence number, `idx` the next
environment index.  Each iteration removes at least one byte, so fuel
`br` suffices.  Returns the loop's exit result, the DATA segments handed
to `transport_keep_trying_to_tx` in order, and the final `cs` and `idx`. -/
def txDataLoop (env : ℕ → NetEv) (msg : ℕ → ℕ) (message_len dest_port myPort : ℕ) :
    ℕ → ℕ → ℕ → ℕ → TxResult × List (List ℕ) × ℕ × ℕ
  | 0, _, cs, idx => (.success, [], cs, idx)
  | fuel + 1, br, cs, idx =>
    if br = 0 then (.success, [], cs, idx)
    else
      let this_payload_len :=
        if br > MAX_SEGMENT_LEN - DATA_SEGMENT_HEADER_LEN then
          MAX_SEGMENT_LEN - DATA_SEGMENT_HEADER_LEN
        else br
      let seg := dataSegment msg dest_port myPort cs (message_len - br) this_payload_len
      match transport_keep_trying_to_tx env cs idx with
      | (.success, k) =>
        let r := txDataLoop env msg message_len dest_port myPort
          fuel (br - this_payload_len) (seqToggle cs) (idx + k)
        (r.1, seg :: r.2.1, r.2.2)
      | (.reachedAttemptLimit, k) => (.reachedAttemptLimit, [seg], cs, idx + k)
      | (.error, k) => (.error, [seg], cs, idx + k)

/-- `transport_tx` (lines 608–683): SOM, then the data loop, then EOM.
Returns the result and the segments handed to
`transport_keep_trying_to_tx`, in order. -/
def transport_tx_model (env : ℕ → NetEv) (msg : ℕ → ℕ)
    (message_len dest_port myPort : ℕ) : TxResult × List (List ℕ) :=
  let som := somSegment message_len dest_port myPort 0
  match transport_keep_trying_to_tx env 0 0 with
  | (.reachedAttemptLimit, _) => (.reachedAttemptLimit, [som])
  | (.error, _) => (.error, [som])
  | (.success, k) =>
    match txDataLoop env msg message_len dest_port myPort
      message_len message_len (seqToggle 0) k with
    | (.success, dsegs, cs', idx') =>
      let eom := eomSegment dest_port myPort cs'
      match transport_keep_trying_to_tx env cs' idx' with
      | (.reachedAttemptLimit, _) => (.reachedAttemptLimit, som :: dsegs ++ [eom])
      | (.error, _) => (.error, som :: dsegs ++ [eom])
      | (.success, _) => (.success, som :: dsegs ++ [eom])
    | (.reachedAttemptLimit, dsegs, _, _) => (.reachedAttemptLimit, som :: dsegs)
    | (.error, dsegs, _, _) => (.error, som :: dsegs)

/-! ## Claim theorems -/

/-- Claim C1 (code bug): forwarding is not transparent.  A node at network
address `0x0B` receives the packet `[6, 0x0C, 0x0A, 0xAA, 0xBB, 0xCC]`
(length 6, destination `0x0C`, source `0x0A`, 3-byte payload).  The code
re-emits it through `network_tx(packet, packet_len, packet[1], packet[2])`,
which wraps the entire packet — header included — as the payload of a new
packet: the `(dest, src)` header is preserved, but the payload bytes are
shifted by `PACKET_HEADER_LEN` and the length grows by `PACKET_HEADER_LEN`,
contradicting the claimed byte-identical payload at the same offsets. -/
theorem c1_forwarding_rewraps_packet :
    network_rx_forward 0x0B [6, 0x0C, 0x0A, 0xAA, 0xBB, 0xCC]
      = some [9, 0x0C, 0x0A, 6, 0x0C, 0x0A, 0xAA, 0xBB, 0xCC] ∧
    byteAt [9, 0x0C, 0x0A, 6, 0x0C, 0x0A, 0xAA, 0xBB, 0xCC] 1
      = byteAt [6, 0x0C, 0x0A, 0xAA, 0xBB, 0xCC] 1 ∧
    byteAt [9, 0x0C, 0x0A, 6, 0x0C, 0x0A, 0xAA, 0xBB, 0xCC] 2
      = byteAt [6, 0x0C, 0x0A, 0xAA, 0xBB, 0xCC] 2 ∧
    byteAt [9, 0x0C, 0x0A, 6, 0x0C, 0x0A, 0xAA, 0xBB, 0xCC] 3
      ≠ byteAt [6, 0x0C, 0x0A, 0xAA, 0xBB, 0xCC] 3 ∧
    ([9, 0x0C, 0x0A, 6, 0x0C, 0x0A, 0xAA, 0xBB, 0xCC] : List ℕ).length
      ≠ ([6, 0x0C, 0x0A, 0xAA, 0xBB, 0xCC] : List ℕ).length := by
  refine ⟨?_, ?_, ?_, ?_, ?_⟩ <;> decide

/-- Claim C2 (code bug): on a START_OF_MESSAGE in the Idle state the code
records `*source_port ← segment[3]` as claimed, but
`*message_len = segment[5] << 8 + segment[6]` shifts by `8 + segment[6]`
(operator precedence), not the claimed big-endian `(segment[5] << 8) +
segment[6]`.  For the SOM segment `[7, 0, 2, 0x3C, 0x07, 1, 2]` (message
length 258 on the wire) the code stores 1024. -/
theorem c2_som_message_len_precedence_bug :
    transport_rx_step 100 .idle none none [7, 0, 2, 0x3C, 0x07, 1, 2]
      = (.receiving, [], some 1024, some 0x3C) ∧
    som_message_len_code [7, 0, 2, 0x3C, 0x07, 1, 2] = 1024 ∧
    som_message_len_spec [7, 0, 2, 0x3C, 0x07, 1, 2] = 258 ∧
    som_message_len_code [7, 0, 2, 0x3C, 0x07, 1, 2]
      ≠ som_message_len_spec [7, 0, 2, 0x3C, 0x07, 1, 2] := by
  refine ⟨?_, ?_, ?_, ?_⟩ <;> decide

/-- Claim C3, counterexample: a START_OF_MESSAGE segment with sequence
number 0 received while `rx_seq = 1` is classified Success (the SOM first
resynchronizes `rx_seq`), not Outdated as the claim states for every
segment with a mismatched sequence number. -/
theorem c3_counterexample_som_resync :
    transport_attempt_rx 60 1 (.seg [7, 0, 2, 5, 7, 0, 9])
      = (.success, 1, some (ackSegment 60 [7, 0, 2, 5, 7, 0, 9])) ∧
    byteAt [7, 0, 2, 5, 7, 0, 9] 1 ≠ 1 ∧
    (transport_attempt_rx 60 1 (.seg [7, 0, 2, 5, 7, 0, 9])).1
      ≠ AttemptRxResult.outdated := by
  refine ⟨?_, ?_, ?_⟩ <;> decide

/-- Claim C4: for every segment obtained from `network_rx` — duplicates
included, since the statement holds for every value of `rx_seq` and in the
Outdated branch too — `transport_attempt_rx` emits an ACK whose sequence
number is 1 when the segment carried 0 and 0 when it carried 1, whose
destination port is the received segment's `segment[3]`, and whose source
port is `MY_PORT`; the ACK is independent of the sequence-number check's
outcome. -/
theorem c4_ack_always_sent :
    ∀ (myPort rx_seq : ℕ) (s : List ℕ),
      ∃ ack, (transport_attempt_rx myPort rx_seq (.seg s)).2.2 = some ack ∧
        byteAt ack 0 = ACK_SEGMENT_HEARDER_LEN ∧
        byteAt ack 1 = (if byteAt s 1 = 0 then 1 else 0) ∧
        byteAt ack 2 = byteAt s 3 ∧
        byteAt ack 3 = myPort ∧
        byteAt ack 4 = SEGID_ACK := by
  intro myPort rx_seq s
  refine ⟨ackSegment myPort s, ?_, ?_, ?_, ?_, ?_, ?_⟩
  · simp only [transport_attempt_rx]
    split <;> split <;> rfl
  all_goals simp [ackSegment, byteAt]

/-- Claim C8: whenever `transport_attempt_rx` receives a START_OF_MESSAGE
segment it resynchronizes on that segment's sequence number: whatever the
previous `rx_seq` was, the attempt succeeds, the new expected sequence
number is the toggle of `segment[1]`, and the usual ACK is emitted — so a
restarting sender resynchronizes the receiver. -/
theorem c8_som_resynchronizes (myPort rx_seq : ℕ) (s : List ℕ)
    (hsom : byteAt s 4 = SEGID_START_OF_MESSAGE) :
    transport_attempt_rx myPort rx_seq (.seg s)
      = (.success, seqToggle (byteAt s 1), some (ackSegment myPort s)) := by
  unfold transport_attempt_rx seqToggle
  simp [hsom]

/-- Witness for `c8_som_resynchronizes` at a concrete SOM segment. -/
theorem c8_som_resynchronizes_witness :
    transport_attempt_rx 60 1 (.seg [7, 0, 2, 5, 7, 1, 4])
      = (.success, seqToggle (byteAt [7, 0, 2, 5, 7, 1, 4] 1),
          some (ackSegment 60 [7, 0, 2, 5, 7, 1, 4])) :=
  c8_som_resynchronizes 60 1 [7, 0, 2, 5, 7, 1, 4] (by decide)

/-- Claim C10: the packet built by `network_tx` declares
`packet[0] = payload_len + PACKET_HEADER_LEN`, while the copy loop places
only `min(payload_len, MAX_PACKET_LEN - PACKET_HEADER_LEN)` =
`min(payload_len, 28)` payload bytes; so whenever `payload_len > 28` the
declared length exceeds the number of bytes actually placed in the
packet. -/
theorem c10_network_tx_length_vs_copied (payload : List ℕ)
    (payload_len dest src : ℕ) (h : payload_len + PACKET_HEADER_LEN < 256) :
    byteAt (network_tx_packet payload payload_len dest src) 0
      = payload_len + PACKET_HEADER_LEN ∧
    MAX_PACKET_LEN - PACKET_HEADER_LEN = 28 ∧
    network_tx_copied payload_len ≤ 28 ∧
    (network_tx_packet payload payload_len dest src).length
      = PACKET_HEADER_LEN + network_tx_copied payload_len ∧
    (28 < payload_len →
      PACKET_HEADER_LEN + network_tx_copied payload_len
        < payload_len + PACKET_HEADER_LEN) := by
  refine ⟨?_, by decide, ?_, ?_, ?_⟩
  · simp [network_tx_packet, byteAt]
    omega
  · simp only [network_tx_copied, MAX_PACKET_LEN, PACKET_HEADER_LEN,
      TRX_PAYLOAD_LENGTH, FRAME_HEADER_LEN]
    omega
  · simp only [network_tx_packet, network_tx_copied, List.length_cons,
      List.length_map, List.length_range]
    simp only [PACKET_HEADER_LEN]
    omega
  · intro hlt
    simp only [network_tx_copied, MAX_PACKET_LEN, PACKET_HEADER_LEN,
      TRX_PAYLOAD_LENGTH, FRAME_HEADER_LEN]
    omega

/-- Witness for `c10_network_tx_length_vs_copied`: forwarding a full
31-byte packet re-wraps it with `payload_len = 31 > 28`. -/
theorem c10_network_tx_length_vs_copied_witness :
    byteAt (network_tx_packet (List.replicate 31 7) 31 12 10) 0
      = 31 + PACKET_HEADER_LEN ∧
    MAX_PACKET_LEN - PACKET_HEADER_LEN = 28 ∧
    network_tx_copied 31 ≤ 28 ∧
    (network_tx_packet (List.replicate 31 7) 31 12 10).length
      = PACKET_HEADER_LEN + network_tx_copied 31 ∧
    (28 < 31 →
      PACKET_HEADER_LEN + network_tx_copied 31 < 31 + PACKET_HEADER_LEN) :=
  c10_network_tx_length_vs_copied (List.replicate 31 7) 31 12 10 (by decide)

/-- The sequence-number toggle never returns its argument. -/
lemma seqToggle_ne (x : ℕ) : seqToggle x ≠ x := by
  simp only [seqToggle]
  split <;> omega

/-- Claim C3 (amended to non-SOM segments): a segment that is not a
START_OF_MESSAGE and whose sequence number differs from `rx_seq` is
classified Outdated with `rx_seq` unchanged (only the ACK is emitted); the
keep-trying wrapper silently discards such a segment; a matching sequence
number yields Success and toggles `rx_seq` between 0 and 1; and right
after a successful reception the same segment received again is classified
Outdated, so a duplicated DATA payload is delivered at most once. -/
theorem c3_duplicate_suppression (myPort rx_seq : ℕ) (s : List ℕ)
    (hns : byteAt s 4 ≠ SEGID_START_OF_MESSAGE) :
    (byteAt s 1 ≠ rx_seq →
      transport_attempt_rx myPort rx_seq (.seg s)
        = (.outdated, rx_seq, some (ackSegment myPort s))) ∧
    (∀ evs, byteAt s 1 ≠ rx_seq →
      transport_keep_trying_to_rx myPort rx_seq (.seg s :: evs)
        = transport_keep_trying_to_rx myPort rx_seq evs) ∧
    (byteAt s 1 = rx_seq →
      transport_attempt_rx myPort rx_seq (.seg s)
        = (.success, seqToggle rx_seq, some (ackSegment myPort s)) ∧
      (seqToggle rx_seq = 0 ∨ seqToggle rx_seq = 1)) ∧
    (byteAt s 1 = rx_seq →
      (transport_attempt_rx myPort (seqToggle rx_seq) (.seg s)).1
        = AttemptRxResult.outdated) := by
  have hatt : byteAt s 1 ≠ rx_seq →
      transport_attempt_rx myPort rx_seq (.seg s)
        = (.outdated, rx_seq, some (ackSegment myPort s)) := by
    intro hne
    simp only [transport_attempt_rx]
    simp [hns, Ne.symm hne]
  refine ⟨hatt, ?_, ?_, ?_⟩
  · intro evs hne
    simp only [transport_keep_trying_to_rx]
    rw [hatt hne]
  · intro heq
    constructor
    · simp only [transport_attempt_rx, seqToggle]
      simp [hns, heq]
    · simp only [seqToggle]
      split <;> omega
  · intro heq
    simp only [transport_attempt_rx]
    have : seqToggle rx_seq ≠ byteAt s 1 := by
      rw [heq]
      exact seqToggle_ne rx_seq
    simp [hns, this]

/-- Witness for `c3_duplicate_suppression`: a DATA segment with sequence
number 0 arriving while `rx_seq = 1` is Outdated and leaves `rx_seq`
untouched. -/
theorem c3_duplicate_suppression_witness :
    transport_attempt_rx 60 1 (.seg [9, 0, 2, 5, 13, 0, 0, 65, 66])
      = (.outdated, 1, some (ackSegment 60 [9, 0, 2, 5, 13, 0, 0, 65, 66])) :=
  (c3_duplicate_suppression 60 1 [9, 0, 2, 5, 13, 0, 0, 65, 66] (by decide)).1
    (by decide)

/-- The receive keep-trying wrapper never reports an error: the
`TRANSPORT_ATTEMPT_RX_ERROR` case falls through to a retry (its `return`
is commented out at line 448). -/
lemma keep_rx_result_ne_error (myPort : ℕ) :
    ∀ (evs : List NetEv) (rx_seq : ℕ)
      (out : (KeepRxResult × List ℕ) × ℕ × List NetEv),
      transport_keep_trying_to_rx myPort rx_seq evs = some out →
      out.1.1 ≠ KeepRxResult.error := by
  intro evs
  induction evs with
  | nil =>
    intro rx_seq out h
    simp [transport_keep_trying_to_rx] at h
  | cons ev rest ih =>
    intro rx_seq out h
    rw [transport_keep_trying_to_rx] at h
    rcases hatt : transport_attempt_rx myPort rx_seq ev with ⟨r, q, ack⟩
    rw [hatt] at h
    cases r with
    | success =>
      cases ev <;> simp at h <;> rw [← h] <;> simp
    | timeout =>
      simp at h
      rw [← h]
      simp
    | outdated => exact ih q out h
    | error => exact ih q out h

/-- The `transport_rx` message loop never returns an error, because the
wrapper it reads segments through never produces one. -/
lemma transport_rx_go_ne_error (myPort buf_len : ℕ) :
    ∀ (fuel rx_seq : ℕ) (st : RxState) (ml sp : Option ℕ) (evs : List NetEv)
      (out : TransportRxResult × List (ℕ × ℕ) × Option ℕ × Option ℕ),
      transport_rx_go myPort buf_len fuel rx_seq st ml sp evs = some out →
      out.1 ≠ TransportRxResult.error := by
  intro fuel
  induction fuel with
  | zero =>
    intro rx_seq st ml sp evs out h
    simp [transport_rx_go] at h
  | succ n ih =>
    intro rx_seq st ml sp evs out h
    rw [transport_rx_go] at h
    rcases hk : transport_keep_trying_to_rx myPort rx_seq evs with _ | ⟨⟨kr, ds⟩, q, rest⟩
    · rw [hk] at h
      simp at h
    · rw [hk] at h
      cases kr with
      | timeout =>
        simp at h
        rw [← h]
        simp
      | error => exact absurd rfl (keep_rx_result_ne_error myPort evs rx_seq _ hk)
      | success =>
        simp only [] at h
        split at h
        · simp at h
          rw [← h]
          simp
        · rcases hstep : transport_rx_step buf_len st ml sp ds with ⟨st', ws, ml', sp'⟩
          rw [hstep] at h
          rcases hg : transport_rx_go myPort buf_len n q st' ml' sp' rest
            with _ | ⟨r', ws', ml'', sp''⟩
          · rw [hg] at h
            simp at h
          · rw [hg] at h
            simp only [Option.some.injEq] at h
            rw [← h]
            exact ih q st' ml' sp' rest (r', ws', ml'', sp'') hg

/-- Claim C7 (amended): the keep-trying wrapper retries silently on
Outdated and on any attempt-level network error (the error return at line
448 is commented out), so `transport_rx` surfaces a network receive
timeout as `TRANSPORT_RX_TIMEOUT` but never returns `TRANSPORT_RX_ERROR`:
attempt-level errors are swallowed by retrying. -/
theorem c7_timeout_surfaced_error_swallowed :
    (∀ (myPort rx_seq : ℕ) (evs : List NetEv),
      transport_keep_trying_to_rx myPort rx_seq (.error :: evs)
        = transport_keep_trying_to_rx myPort rx_seq evs) ∧
    (∀ (myPort rx_seq : ℕ) (evs : List NetEv),
      transport_keep_trying_to_rx myPort rx_seq (.timeout :: evs)
        = some ((.timeout, []), rx_seq, evs)) ∧
    (∀ (myPort rx_seq : ℕ) (evs : List NetEv) out,
      transport_keep_trying_to_rx myPort rx_seq evs = some out →
      out.1.1 ≠ KeepRxResult.error) ∧
    (∀ (myPort buf_len rx_seq fuel : ℕ) (evs : List NetEv) out,
      transport_rx_model myPort buf_len rx_seq fuel evs = some out →
      out.1 ≠ TransportRxResult.error) ∧
    (∀ (myPort buf_len rx_seq fuel : ℕ), 0 < fuel →
      transport_rx_model myPort buf_len rx_seq fuel [.timeout]
        = some (.timeout, zeroWrites buf_len, none, none)) := by
  refine ⟨?_, ?_, ?_, ?_, ?_⟩
  · intro myPort rx_seq evs
    rw [transport_keep_trying_to_rx]
    rfl
  · intro myPort rx_seq evs
    rw [transport_keep_trying_to_rx]
    rfl
  · intro myPort rx_seq evs out h
    exact keep_rx_result_ne_error myPort evs rx_seq out h
  · intro myPort buf_len rx_seq fuel evs out h
    rcases hg : transport_rx_go myPort buf_len fuel rx_seq .idle none none evs
      with _ | ⟨r, ws, ml, sp⟩
    · rw [transport_rx_model, hg] at h
      simp at h
    · rw [transport_rx_model, hg] at h
      simp only [Option.some.injEq] at h
      rw [← h]
      exact transport_rx_go_ne_error myPort buf_len fuel rx_seq .idle none none evs
        (r, ws, ml, sp) hg
  · intro myPort buf_len rx_seq fuel hf
    cases fuel with
    | zero => omega
    | succ n =>
      rw [transport_rx_model, transport_rx_go, transport_keep_trying_to_rx]
      simp [transport_attempt_rx]

/-- Witness for `c7_timeout_surfaced_error_swallowed`: a concrete
`transport_rx` run whose only network event is a timeout returns
`TRANSPORT_RX_TIMEOUT`. -/
theorem c7_timeout_surfaced_error_swallowed_witness :
    transport_rx_model 60 4 0 1 [.timeout]
      = some (.timeout, zeroWrites 4, none, none) :=
  c7_timeout_surfaced_error_swallowed.2.2.2.2 60 4 0 1 (by decide)

/-- Claim C7, counterexample to the original statement: with network
events [error, timeout] the error is retried, not surfaced — the overall
result is `TRANSPORT_RX_TIMEOUT`, never `TRANSPORT_RX_ERROR`. -/
theorem c7_counterexample_error_not_surfaced :
    transport_rx_model 60 4 0 5 [.error, .timeout]
      = some (.timeout, [(0, 0), (1, 0), (2, 0), (3, 0)], none, none) ∧
    TransportRxResult.timeout ≠ TransportRxResult.error := by
  refine ⟨?_, by decide⟩
  decide

/-- Every store produced by the DATA copy loop has index below
`buf_len`: the loop condition `i + offset < buf_len` guards every write. -/
lemma dataCopyLoop_writes_lt (s : List ℕ) (offset buf_len : ℕ) :
    ∀ (k i : ℕ) (w : ℕ × ℕ), w ∈ dataCopyLoop s offset buf_len i k →
      w.1 < buf_len := by
  intro k
  induction k with
  | zero =>
    intro i w hw
    simp [dataCopyLoop] at hw
  | succ k ih =>
    intro i w hw
    rw [dataCopyLoop] at hw
    split at hw
    · rcases List.mem_cons.mp hw with h | h
      · rw [h]
        assumption
      · exact ih (i + 1) w h
    · simp at hw

/-- Every store produced by one step of the `transport_rx` state machine
has index below `buf_len`. -/
lemma transport_rx_step_writes_lt (buf_len : ℕ) (st : RxState)
    (ml sp : Option ℕ) (s : List ℕ) :
    ∀ w ∈ (transport_rx_step buf_len st ml sp s).2.1, w.1 < buf_len := by
  intro w hw
  cases st <;> simp only [transport_rx_step] at hw
  · split at hw <;> simp at hw
  · split at hw
    · exact dataCopyLoop_writes_lt s (data_offset s) buf_len _ 0 w hw
    · split at hw <;> simp at hw

/-- Every store performed by the `transport_rx` message loop has index
below `buf_len`. -/
lemma transport_rx_go_writes_lt (myPort buf_len : ℕ) :
    ∀ (fuel rx_seq : ℕ) (st : RxState) (ml sp : Option ℕ) (evs : List NetEv)
      (out : TransportRxResult × List (ℕ × ℕ) × Option ℕ × Option ℕ),
      transport_rx_go myPort buf_len fuel rx_seq st ml sp evs = some out →
      ∀ w ∈ out.2.1, w.1 < buf_len := by
  intro fuel
  induction fuel with
  | zero =>
    intro rx_seq st ml sp evs out h
    simp [transport_rx_go] at h
  | succ n ih =>
    intro rx_seq st ml sp evs out h
    rw [transport_rx_go] at h
    rcases hk : transport_keep_trying_to_rx myPort rx_seq evs with _ | ⟨⟨kr, ds⟩, q, rest⟩
    · rw [hk] at h
      simp at h
    · rw [hk] at h
      cases kr with
      | timeout =>
        simp at h
        rw [← h]
        simp
      | error =>
        simp at h
        rw [← h]
        simp
      | success =>
        simp only [] at h
        split at h
        · simp at h
          rw [← h]
          simp
        · rcases hstep : transport_rx_step buf_len st ml sp ds with ⟨st', ws, ml', sp'⟩
          rw [hstep] at h
          rcases hg : transport_rx_go myPort buf_len n q st' ml' sp' rest
            with _ | ⟨r', ws', ml'', sp''⟩
          · rw [hg] at h
            simp at h
          · rw [hg] at h
            simp only [Option.some.injEq] at h
            rw [← h]
            intro w hw
            rcases List.mem_append.mp hw with hmem | hmem
            · have := transport_rx_step_writes_lt buf_len st ml sp ds
              rw [hstep] at this
              exact this w hmem
            · exact ih q st' ml' sp' rest (r', ws', ml'', sp'') hg w hmem

/-- Claim C9: every store into the caller's buffer uses an index strictly
below `buf_len`: the initial zeroing writes exactly indices
`0 … buf_len-1`, the DATA copy loop only ever writes `i + offset` while
`i + offset < buf_len` whatever offset and payload length the segment
carries, and consequently every write of a complete `transport_rx` run is
in bounds. -/
theorem c9_buffer_writes_in_bounds :
    (∀ buf_len : ℕ, (zeroWrites buf_len).map Prod.fst = List.range buf_len) ∧
    (∀ (s : List ℕ) (offset payload_len buf_len : ℕ),
      ∀ w ∈ dataCopyWrites s offset payload_len buf_len, w.1 < buf_len) ∧
    (∀ (myPort buf_len rx_seq fuel : ℕ) (evs : List NetEv) out,
      transport_rx_model myPort buf_len rx_seq fuel evs = some out →
      ∀ w ∈ out.2.1, w.1 < buf_len) := by
  refine ⟨?_, ?_, ?_⟩
  · intro buf_len
    simp only [zeroWrites, List.map_map]
    have hid : (Prod.fst ∘ fun i : ℕ => (i, 0)) = id := rfl
    rw [hid, List.map_id]
  · intro s offset payload_len buf_len w hw
    exact dataCopyLoop_writes_lt s offset buf_len payload_len 0 w hw
  · intro myPort buf_len rx_seq fuel evs out h w hw
    rcases hg : transport_rx_go myPort buf_len fuel rx_seq .idle none none evs
      with _ | ⟨r, ws, ml, sp⟩
    · rw [transport_rx_model, hg] at h
      simp at h
    · rw [transport_rx_model, hg] at h
      simp only [Option.some.injEq] at h
      rw [← h] at hw
      rcases List.mem_append.mp hw with hmem | hmem
      · simp only [zeroWrites, List.mem_map, List.mem_range] at hmem
        rcases hmem with ⟨i, hi, hwi⟩
        rw [← hwi]
        exact hi
      · exact transport_rx_go_writes_lt myPort buf_len fuel rx_seq .idle none none evs
          (r, ws, ml, sp) hg w hmem

/-- Witness for `c9_buffer_writes_in_bounds` at a concrete run: the store
`(2, 0)` of a 4-byte-buffer run is in bounds. -/
theorem c9_buffer_writes_in_bounds_witness :
    ((2 : ℕ), (0 : ℕ)).1 < 4 :=
  c9_buffer_writes_in_bounds.2.2 60 4 0 1 [.timeout]
    (.timeout, zeroWrites 4, none, none) (by decide) (2, 0) (by decide)

/-- The retryable classifications: everything except Success and Err. -/
def retryResults : List AttemptTxResult :=
  [.notAcknowledged, .oldAck, .notAnAck]

/-- The keep-trying transmit loop makes at most `n` attempts when `n`
iterations are allowed. -/
lemma keepTxGo_count_le (env : ℕ → NetEv) (cs : ℕ) :
    ∀ (n idx : ℕ), (keepTxGo env cs n idx).2 ≤ n := by
  intro n
  induction n with
  | zero =>
    intro idx
    simp [keepTxGo]
  | succ n ih =>
    intro idx
    rw [keepTxGo]
    rcases h : transport_attempt_tx (env idx) cs <;> simp
    all_goals exact ih (idx + 1)

/-- If every one of the `n` allowed attempts classifies as retryable, the
keep-trying transmit loop makes all `n` attempts and reports the attempt
limit. -/
lemma keepTxGo_all_retry (env : ℕ → NetEv) (cs : ℕ) :
    ∀ (n idx : ℕ),
      (∀ j < n, transport_attempt_tx (env (idx + j)) cs ∈ retryResults) →
      keepTxGo env cs n idx = (.reachedAttemptLimit, n) := by
  intro n
  induction n with
  | zero =>
    intro idx _
    rfl
  | succ n ih =>
    intro idx hall
    have h0 := hall 0 (by omega)
    rw [keepTxGo]
    have hrec : keepTxGo env cs n (idx + 1) = (.reachedAttemptLimit, n) := by
      apply ih
      intro j hj
      have := hall (j + 1) (by omega)
      rwa [show idx + (j + 1) = idx + 1 + j by omega] at this
    rcases h : transport_attempt_tx (env (idx + 0)) cs <;>
      rw [show idx + 0 = idx by omega] at h <;> rw [h] <;>
      simp [retryResults, h] at h0 ⊢ <;> simp [hrec]

/-- If the first `i` attempts classify as retryable and attempt `i`
classifies as Success, the keep-trying transmit loop returns Success after
exactly `i + 1` attempts. -/
lemma keepTxGo_success_at (env : ℕ → NetEv) (cs : ℕ) :
    ∀ (i n idx : ℕ), i < n →
      (∀ j < i, transport_attempt_tx (env (idx + j)) cs ∈ retryResults) →
      transport_attempt_tx (env (idx + i)) cs = .success →
      keepTxGo env cs n idx = (.success, i + 1) := by
  intro i
  induction i with
  | zero =>
    intro n idx hn _ hs
    cases n with
    | zero => omega
    | succ m =>
      rw [keepTxGo]
      rw [show idx + 0 = idx by omega] at hs
      rw [hs]
  | succ i ih =>
    intro n idx hn hpre hs
    cases n with
    | zero => omega
    | succ m =>
      have h0 := hpre 0 (by omega)
      have hrec : keepTxGo env cs m (idx + 1) = (.success, i + 1) := by
        apply ih m (idx + 1) (by omega)
        · intro j hj
          have := hpre (j + 1) (by omega)
          rwa [show idx + (j + 1) = idx + 1 + j by omega] at this
        · rwa [show idx + 1 + i = idx + (i + 1) by omega]
      rw [keepTxGo]
      rcases h : transport_attempt_tx (env (idx + 0)) cs <;>
        rw [show idx + 0 = idx by omega] at h <;> rw [h] <;>
        simp [retryResults, h] at h0 ⊢ <;> simp [hrec]

/-- Claim C5: `transport_keep_trying_to_tx` makes at most
`ATTEMPT_LIMIT = 10` calls to `transport_attempt_tx`; it returns Success
as soon as an attempt is answered by an ACK segment whose sequence number
is the complement of `current_seq`, retrying after NotAcknowledged
(timeout), NotAnAck, and OldAck; if all 10 attempts classify as retryable
it returns ReachedAttemptLimit after exactly 10 attempts; and
`transport_tx` toward an unresponsive receiver (every ACK wait times out)
returns ReachedAttemptLimit after its 10 failed SOM attempts. -/
theorem c5_attempt_limit :
    (∀ (env : ℕ → NetEv) (cs idx : ℕ),
      (transport_keep_trying_to_tx env cs idx).2 ≤ TRANSPORT_TX_ATTEMPT_LIMIT) ∧
    (∀ (env : ℕ → NetEv) (cs idx i : ℕ) (a : List ℕ),
      i < TRANSPORT_TX_ATTEMPT_LIMIT →
      (∀ j < i, transport_attempt_tx (env (idx + j)) cs ∈ retryResults) →
      env (idx + i) = .seg a → byteAt a 4 = SEGID_ACK →
      byteAt a 1 = seqToggle cs →
      transport_keep_trying_to_tx env cs idx = (.success, i + 1)) ∧
    (∀ (env : ℕ → NetEv) (cs idx : ℕ),
      (∀ j < TRANSPORT_TX_ATTEMPT_LIMIT,
        transport_attempt_tx (env (idx + j)) cs ∈ retryResults) →
      transport_keep_trying_to_tx env cs idx
        = (.reachedAttemptLimit, TRANSPORT_TX_ATTEMPT_LIMIT)) ∧
    (∀ (msg : ℕ → ℕ) (dest_port myPort : ℕ),
      transport_tx_model (fun _ => .timeout) msg 1 dest_port myPort
        = (.reachedAttemptLimit, [somSegment 1 dest_port myPort 0]) ∧
      (transport_keep_trying_to_tx (fun _ => .timeout) 0 0).2
        = TRANSPORT_TX_ATTEMPT_LIMIT) := by
  refine ⟨?_, ?_, ?_, ?_⟩
  · intro env cs idx
    exact keepTxGo_count_le env cs TRANSPORT_TX_ATTEMPT_LIMIT idx
  · intro env cs idx i a hi hpre henv hack hseq
    apply keepTxGo_success_at env cs i TRANSPORT_TX_ATTEMPT_LIMIT idx hi hpre
    rw [henv]
    simp only [transport_attempt_tx, hack]
    have : byteAt a 1 ≠ cs := by
      rw [hseq]
      exact seqToggle_ne cs
    simp [this]
  · intro env cs idx hall
    exact keepTxGo_all_retry env cs TRANSPORT_TX_ATTEMPT_LIMIT idx hall
  · intro msg dest_port myPort
    exact ⟨rfl, rfl⟩

/-- Witness for `c5_attempt_limit`: with one timed-out attempt followed by
a proper complement ACK, the wrapper succeeds on the second attempt. -/
theorem c5_attempt_limit_witness :
    transport_keep_trying_to_tx
        (fun j => if j = 0 then .timeout else .seg [5, 1, 0, 0, 10]) 0 0
      = (.success, 2) :=
  c5_attempt_limit.2.1
    (fun j => if j = 0 then .timeout else .seg [5, 1, 0, 0, 10]) 0 0 1
    [5, 1, 0, 0, 10] (by decide)
    (by
      intro j hj
      interval_cases j
      decide)
    (by decide) (by decide) (by decide)

/-- The `(start_address, this_payload_len)` schedule of the data-segment
loop as the spec describes it: each segment carries
`min(bytes_remaining, MAX_SEGMENT_LEN - DATA_SEGMENT_HEADER_LEN)` bytes
taken from offset `message_len - bytes_remaining`.  The first argument of
the recursion is fuel; `bytes_remaining` drops by at least one per
segment, so fuel `bytes_remaining` is enough. -/
def dataChunks (message_len : ℕ) : ℕ → ℕ → List (ℕ × ℕ)
  | 0, _ => []
  | fuel + 1, br =>
    if br = 0 then []
    else
      (message_len - br, min br (MAX_SEGMENT_LEN - DATA_SEGMENT_HEADER_LEN)) ::
        dataChunks message_len fuel
          (br - min br (MAX_SEGMENT_LEN - DATA_SEGMENT_HEADER_LEN))

/-- The DATA segments `transport_tx` constructs (lines 634–667) when every
keep-trying call succeeds, written as a pure function of the message and
the loop state; `txDataLoop_success_segments` proves the loop emits
exactly these. -/
def dataSegsPure (msg : ℕ → ℕ) (dest_port myPort message_len : ℕ) :
    ℕ → ℕ → ℕ → List (List ℕ)
  | 0, _, _ => []
  | fuel + 1, br, cs =>
    if br = 0 then []
    else
      let this_payload_len :=
        if br > MAX_SEGMENT_LEN - DATA_SEGMENT_HEADER_LEN then
          MAX_SEGMENT_LEN - DATA_SEGMENT_HEADER_LEN
        else br
      dataSegment msg dest_port myPort cs (message_len - br) this_payload_len ::
        dataSegsPure msg dest_port myPort message_len fuel
          (br - this_payload_len) (seqToggle cs)

/-- On a successful run the data-segment loop emits exactly the segments
of `dataSegsPure`, whatever the environment did during the retries. -/
lemma txDataLoop_success_segments (env : ℕ → NetEv) (msg : ℕ → ℕ)
    (message_len dest_port myPort : ℕ) :
    ∀ (fuel br cs idx : ℕ),
      (txDataLoop env msg message_len dest_port myPort fuel br cs idx).1
        = .success →
      (txDataLoop env msg message_len dest_port myPort fuel br cs idx).2.1
        = dataSegsPure msg dest_port myPort message_len fuel br cs := by
  intro fuel
  induction fuel with
  | zero =>
    intro br cs idx _
    rfl
  | succ n ih =>
    intro br cs idx h
    rw [txDataLoop] at h ⊢
    rw [dataSegsPure]
    by_cases hbr : br = 0
    · simp [hbr]
    · simp only [if_neg hbr] at h ⊢
      rcases hk : transport_keep_trying_to_tx env cs idx with ⟨kr, k⟩
      rw [hk] at h
      cases kr with
      | success =>
        simp only [] at h ⊢
        simp only [List.cons.injEq, true_and]
        exact ih _ (seqToggle cs) (idx + k) h
      | reachedAttemptLimit => simp at h
      | error => simp at h

/-- The receiver-side offset decoder recovers the start address a DATA
segment was built with, as long as it fits in 16 bits. -/
lemma dataSegment_offset (msg : ℕ → ℕ) (dest_port myPort cs sa payl : ℕ)
    (h : sa < 65536) :
    data_offset (dataSegment msg dest_port myPort cs sa payl) = sa := by
  simp only [dataSegment, data_offset, byteAt, List.cons_append,
    List.getD_cons_succ, List.getD_cons_zero, List.nil_append]
  omega

lemma dataSegment_length (msg : ℕ → ℕ) (dest_port myPort cs sa payl : ℕ) :
    (dataSegment msg dest_port myPort cs sa payl).length
      = payl + DATA_SEGMENT_HEADER_LEN := by
  simp [dataSegment, DATA_SEGMENT_HEADER_LEN]

/-- Dropping the 7-byte header of a DATA segment leaves exactly the
payload bytes copied from the message. -/
lemma dataSegment_drop (msg : ℕ → ℕ) (dest_port myPort cs sa payl : ℕ) :
    (dataSegment msg dest_port myPort cs sa payl).drop DATA_SEGMENT_HEADER_LEN
      = (List.range payl).map (fun i => msg (i + sa)) := by
  rw [dataSegment]
  exact List.drop_left' rfl

/-- The `(offset, payload length)` pairs of the segments `transport_tx`
builds are exactly the schedule `dataChunks` describes, the offsets read
back through the receiver's own decoder. -/
lemma dataSegsPure_chunks (msg : ℕ → ℕ) (dest_port myPort message_len : ℕ)
    (hL : message_len < 65536) :
    ∀ (fuel br cs : ℕ), br ≤ message_len →
      (dataSegsPure msg dest_port myPort message_len fuel br cs).map
        (fun s => (data_offset s, s.length - DATA_SEGMENT_HEADER_LEN))
      = dataChunks message_len fuel br := by
  intro fuel
  induction fuel with
  | zero =>
    intro br cs _
    rfl
  | succ n ih =>
    intro br cs hbr
    rw [dataSegsPure, dataChunks]
    by_cases h0 : br = 0
    · simp [h0]
    · simp only [if_neg h0, List.map_cons, List.cons.injEq]
      refine ⟨?_, ?_⟩
      · rw [dataSegment_offset msg dest_port myPort cs _ _ (by omega),
          dataSegment_length]
        have h21 : MAX_SEGMENT_LEN - DATA_SEGMENT_HEADER_LEN = 21 := rfl
        rw [h21]
        simp only [Prod.mk.injEq]
        refine ⟨trivial, ?_⟩
        split <;> omega
      · have h21 : MAX_SEGMENT_LEN - DATA_SEGMENT_HEADER_LEN = 21 := rfl
        rw [h21]
        have harg :
            (br - if br > 21 then 21 else br) = br - min br 21 := by
          split <;> omega
        rw [harg]
        exact ih (br - min br 21) (seqToggle cs) (by omega)

/-- Every chunk of the schedule starts at or after `message_len - br`. -/
lemma dataChunks_offset_ge (message_len : ℕ) :
    ∀ (fuel br : ℕ) (q : ℕ × ℕ), q ∈ dataChunks message_len fuel br →
      message_len - br ≤ q.1 := by
  intro fuel
  induction fuel with
  | zero =>
    intro br q hq
    simp [dataChunks] at hq
  | succ n ih =>
    intro br q hq
    rw [dataChunks] at hq
    split at hq
    · simp at hq
    · rcases List.mem_cons.mp hq with h | h
      · rw [h]
      · have := ih _ q h
        omega

/-- The chunk offsets are strictly increasing. -/
lemma dataChunks_pairwise (message_len : ℕ) :
    ∀ (fuel br : ℕ), br ≤ message_len →
      List.Pairwise (fun a b : ℕ × ℕ => a.1 < b.1)
        (dataChunks message_len fuel br) := by
  intro fuel
  induction fuel with
  | zero =>
    intro br _
    simp [dataChunks]
  | succ n ih =>
    intro br hbr
    rw [dataChunks]
    by_cases h0 : br = 0
    · simp [h0]
    · simp only [if_neg h0]
      refine List.pairwise_cons.mpr ⟨?_, ih _ (by omega)⟩
      intro q hq
      have hge := dataChunks_offset_ge message_len n
        (br - min br (MAX_SEGMENT_LEN - DATA_SEGMENT_HEADER_LEN)) q hq
      have h21 : MAX_SEGMENT_LEN - DATA_SEGMENT_HEADER_LEN = 21 := rfl
      rw [h21] at hge
      simp only []
      omega

/-- The payloads of the emitted DATA segments, in order, are exactly the
message bytes on `[message_len - br, message_len)`. -/
lemma dataSegsPure_coverage (msg : ℕ → ℕ) (dest_port myPort message_len : ℕ) :
    ∀ (fuel br cs : ℕ), br ≤ fuel → br ≤ message_len →
      (dataSegsPure msg dest_port myPort message_len fuel br cs).flatMap
        (fun s => s.drop DATA_SEGMENT_HEADER_LEN)
      = (List.range' (message_len - br) br).map msg := by
  intro fuel
  induction fuel with
  | zero =>
    intro br cs hf _
    have : br = 0 := by omega
    simp [this, dataSegsPure]
  | succ n ih =>
    intro br cs hf hbr
    rw [dataSegsPure]
    by_cases h0 : br = 0
    · simp [h0]
    · simp only [if_neg h0, List.flatMap_cons]
      have h21 : MAX_SEGMENT_LEN - DATA_SEGMENT_HEADER_LEN = 21 := rfl
      rw [h21]
      have hps : 1 ≤ (if br > 21 then 21 else br) ∧
          (if br > 21 then 21 else br) ≤ br := by
        split <;> omega
      rw [dataSegment_drop]
      rw [ih (br - if br > 21 then 21 else br) (seqToggle cs) (by omega) (by omega)]
      have hmap : (List.range (if br > 21 then 21 else br)).map
            (fun i => msg (i + (message_len - br)))
          = (List.range' (message_len - br) (if br > 21 then 21 else br)).map msg := by
        rw [List.range'_eq_map_range, List.map_map]
        refine congrFun (congrArg List.map ?_) _
        funext i
        simp [Nat.add_comm]
      rw [hmap]
      have hstart : message_len - (br - if br > 21 then 21 else br)
          = message_len - br + 1 * (if br > 21 then 21 else br) := by
        split <;> omega
      rw [hstart, ← List.map_append, List.range'_append]
      have : (br - if br > 21 then 21 else br) + (if br > 21 then 21 else br)
          = br := by omega
      rw [this]

/-- On a successful `transport_tx` run the wire sees the SOM, then the
pure data-segment sequence, then the EOM. -/
lemma transport_tx_success_shape (env : ℕ → NetEv) (msg : ℕ → ℕ)
    (message_len dest_port myPort : ℕ)
    (h : (transport_tx_model env msg message_len dest_port myPort).1 = .success) :
    ∃ cs', (transport_tx_model env msg message_len dest_port myPort).2
      = somSegment message_len dest_port myPort 0 ::
          dataSegsPure msg dest_port myPort message_len message_len message_len 1
        ++ [eomSegment dest_port myPort cs'] := by
  rw [transport_tx_model] at h ⊢
  split at h
  · simp at h
  · simp at h
  · rename_i k h0
    split at h
    · rename_i dsegs cs2 idx2 hd
      split at h
      · simp at h
      · simp at h
      · rename_i k2 he
        refine ⟨cs2, ?_⟩
        have hsegs := txDataLoop_success_segments env msg message_len dest_port
          myPort message_len message_len (seqToggle 0) k (by rw [hd])
        rw [hd] at hsegs
        simp only [] at hsegs
        simp only []
        rw [hsegs]
        rfl
    · simp at h
    · simp at h

/-- Claim C6: on every successful `transport_tx` run the emitted segments
are SOM, the DATA sequence, then EOM; the DATA segments' decoded
`(offset, payload length)` pairs follow the schedule
`(message_len - bytes_remaining, min(bytes_remaining, 21))`, with strictly
increasing offsets; their payloads concatenated are exactly the message
bytes `[0, message_len)`; and a 50-byte message yields offsets 0, 21, 42
with payload lengths 21, 21, 8. -/
theorem c6_segmentation :
    (MAX_SEGMENT_LEN - DATA_SEGMENT_HEADER_LEN = 21) ∧
    (∀ (env : ℕ → NetEv) (msg : ℕ → ℕ) (message_len dest_port myPort : ℕ),
      (transport_tx_model env msg message_len dest_port myPort).1 = .success →
      ∃ cs', (transport_tx_model env msg message_len dest_port myPort).2
        = somSegment message_len dest_port myPort 0 ::
            dataSegsPure msg dest_port myPort message_len message_len message_len 1
          ++ [eomSegment dest_port myPort cs']) ∧
    (∀ (msg : ℕ → ℕ) (dest_port myPort message_len cs fuel br : ℕ),
      message_len < 65536 → br ≤ message_len →
      (dataSegsPure msg dest_port myPort message_len fuel br cs).map
          (fun s => (data_offset s, s.length - DATA_SEGMENT_HEADER_LEN))
        = dataChunks message_len fuel br) ∧
    (∀ (message_len fuel br : ℕ), br ≤ message_len →
      List.Pairwise (fun a b : ℕ × ℕ => a.1 < b.1)
        (dataChunks message_len fuel br)) ∧
    (∀ (msg : ℕ → ℕ) (dest_port myPort message_len cs : ℕ),
      (dataSegsPure msg dest_port myPort message_len
          message_len message_len cs).flatMap
          (fun s => s.drop DATA_SEGMENT_HEADER_LEN)
        = (List.range message_len).map msg) ∧
    (dataChunks 50 50 50 = [(0, 21), (21, 21), (42, 8)]) ∧
    ((transport_tx_model (fun _ => .seg [5, 2, 0, 0, 10])
        (fun i => i) 50 10 60).1 = .success) := by
  refine ⟨rfl, ?_, ?_, ?_, ?_, by decide, by decide⟩
  · intro env msg message_len dest_port myPort h
    exact transport_tx_success_shape env msg message_len dest_port myPort h
  · intro msg dest_port myPort message_len cs fuel br hL hbr
    exact dataSegsPure_chunks msg dest_port myPort message_len hL fuel br cs hbr
  · intro message_len fuel br hbr
    exact dataChunks_pairwise message_len fuel br hbr
  · intro msg dest_port myPort message_len cs
    have := dataSegsPure_coverage msg dest_port myPort message_len
      message_len message_len cs (le_refl _) (le_refl _)
    rw [this]
    rw [Nat.sub_self]
    rw [← List.range_eq_range']

/-- Witness for `c6_segmentation`: the concrete 50-byte all-ACK run is
successful and has the claimed shape. -/
theorem c6_segmentation_witness :
    ∃ cs', (transport_tx_model (fun _ => .seg [5, 2, 0, 0, 10])
        (fun i => i) 50 10 60).2
      = somSegment 50 10 60 0 :: dataSegsPure (fun i => i) 10 60 50 50 50 1
        ++ [eomSegment 10 60 cs'] :=
  c6_segmentation.2.1 (fun _ => .seg [5, 2, 0, 0, 10]) (fun i => i) 50 10 60
    (by decide)

end RocketRover
